import Mathlib

/- Verification of `.github/scripts/update_changelog.py`.

Python strings are modelled as lists of characters (`Str`).  The result of the
`subprocess.check_output` call is passed in as an `Except` value: `.error e`
models `subprocess.CalledProcessError` raised on exit status `e`, and `.ok log`
models the text the git subprocess wrote to stdout.  The changelog file is an
`Option Str` (`none` means `CHANGELOG.md` is absent).  A run either returns the
new file content to be written (`.ok`) or propagates the exception (`.error`),
in which case control never reached `open(CHANGELOG_FILE, "w")` and the file
keeps its prior state. -/

abbrev Str := List Char

/-- Characters stripped by Python `str.strip()` in the ASCII range. -/
def pyIsSpace (c : Char) : Bool :=
  c == ' ' || c == '\t' || c == '\n' || c == '\r' || c == '\x0b' || c == '\x0c'

/-- Python `s.strip()`: remove whitespace from both ends of the string. -/
def pyStrip (s : Str) : Str :=
  ((s.dropWhile pyIsSpace).reverse.dropWhile pyIsSpace).reverse

/-- Embedding of `get_commit_log`, applied to the stdout text of the git
subprocess: `return log.strip().split("\n")`.  Python `split` with an explicit
separator keeps empty pieces and satisfies `"".split("\n") == [""]`, exactly
like `List.splitOn`. -/
def get_commit_log (log : Str) : List Str :=
  (pyStrip log).splitOn '\n'

/-- Embedding of the line
`new_section = [f"## {date_str}\n"] + [f"- {c}" for c in commits] + ["\n"]`. -/
def new_section (commits : List Str) (date_str : Str) : List Str :=
  ["## ".data ++ date_str ++ "\n".data] ++ commits.map (fun c => "- ".data ++ c) ++ ["\n".data]

/-- Text of the new section as it is written: `"\n".join(new_section)`. -/
def section_text (commits : List Str) (date_str : Str) : Str :=
  ['\n'].intercalate (new_section commits date_str)

/-- Embedding of the header-insertion conditional:
`if not old_content.startswith("# Changelog"):
    old_content = "# Changelog\n\n" + old_content`. -/
def with_header (old_content : Str) : Str :=
  if "# Changelog".data.isPrefixOf old_content then old_content
  else "# Changelog\n\n".data ++ old_content

/-- Embedding of `update_changelog`.  `old_content` starts as `""` and is
replaced by the file content when the file exists (`file.getD []`); the final
write stores `old_content + "\n".join(new_section)`. -/
def update_changelog (gitResult : Except Nat Str) (file : Option Str)
    (date_str : Str) : Except Nat (Option Str) :=
  match gitResult with
  | .error e => .error e
  | .ok log =>
    let commits := get_commit_log log
    if commits = [] then .ok file
    else .ok (some (with_header (file.getD []) ++ section_text commits date_str))

/-- File state after a run: a propagated exception means the script aborted
before the write, so the file keeps its prior state; a normal return stores the
written content. -/
def file_after (prior : Option Str) (result : Except Nat (Option Str)) : Option Str :=
  match result with
  | .error _ => prior
  | .ok s => s

/-- Specification-side formatted section, following the spec's words: a heading
line `## <date>`, one bullet line per commit immediately following the heading,
then a blank line, and nothing else. -/
def section_text_spec (commits : List Str) (date_str : Str) : Str :=
  "## ".data ++ date_str ++ "\n".data
    ++ (commits.map (fun c => "- ".data ++ c ++ "\n".data)).flatten
    ++ "\n".data

/-- Specification-side merge step, following the spec's words: prepend the
header block when the existing content does not start with `# Changelog`, then
append the new section after the existing content with a separating blank
line. -/
def merged_content_spec (old_content sec : Str) : Str :=
  (if "# Changelog".data.isPrefixOf old_content then old_content
   else "# Changelog\n\n".data ++ old_content) ++ "\n".data ++ sec

/-- Number of lines of a document that are exactly the header line
`# Changelog`. -/
def header_line_count (doc : Str) : Nat :=
  (doc.splitOn '\n').count "# Changelog".data

theorem get_commit_log_ne_nil (log : Str) : get_commit_log log ≠ [] := by
  simp only [get_commit_log, List.splitOn]
  exact List.splitOnP_ne_nil _ _

theorem update_changelog_ok (log : Str) (file : Option Str) (d : Str) :
    update_changelog (.ok log) file d =
      .ok (some (with_header (file.getD []) ++ section_text (get_commit_log log) d)) := by
  simp [update_changelog, get_commit_log_ne_nil log]

theorem intercalate_cons_of_ne_nil {α : Type _} (sep a : List α) (l : List (List α))
    (h : l ≠ []) :
    List.intercalate sep (a :: l) = a ++ sep ++ List.intercalate sep l := by
  cases l with
  | nil => exact absurd rfl h
  | cons b t =>
    simp [List.intercalate, List.intersperse_cons_cons, List.append_assoc]

theorem intercalate_append_single {α : Type _} (sep b : List α) (l : List (List α))
    (h : l ≠ []) :
    List.intercalate sep (l ++ [b]) = List.intercalate sep l ++ sep ++ b := by
  induction l with
  | nil => exact absurd rfl h
  | cons a t ih =>
    cases t with
    | nil => simp [List.intercalate, List.intersperse_cons_cons]
    | cons c t2 =>
      rw [List.cons_append, intercalate_cons_of_ne_nil sep a (c :: t2 ++ [b]) (by simp),
        intercalate_cons_of_ne_nil sep a (c :: t2) (by simp), ih (by simp)]
      simp [List.append_assoc]

theorem section_text_eq (commits : List Str) (d : Str) (h : commits ≠ []) :
    section_text commits d =
      "## ".data ++ d ++ "\n\n".data
        ++ ['\n'].intercalate (commits.map (fun c => "- ".data ++ c)) ++ "\n\n".data := by
  have hb : commits.map (fun c => "- ".data ++ c) ≠ [] := by
    simpa using h
  rw [section_text, new_section, List.singleton_append, List.cons_append,
    intercalate_cons_of_ne_nil _ _ _ (by simp),
    intercalate_append_single _ _ _ hb]
  simp [List.append_assoc]

theorem splitOnP_pieces_not_sat {α : Type _} (p : α → Bool) (xs : List α) :
    ∀ l ∈ xs.splitOnP p, ∀ a ∈ l, ¬p a = true := by
  induction xs with
  | nil =>
    intro l hl a ha
    rw [List.splitOnP_nil, List.mem_singleton] at hl
    subst hl
    exact absurd ha (List.not_mem_nil a)
  | cons x t ih =>
    intro l hl a ha
    rw [List.splitOnP_cons] at hl
    by_cases hx : p x = true
    · rw [if_pos hx] at hl
      rcases List.mem_cons.mp hl with h1 | h1
      · subst h1; exact absurd ha (List.not_mem_nil a)
      · exact ih l h1 a ha
    · rw [if_neg hx] at hl
      cases hsp : t.splitOnP p with
      | nil => exact absurd hsp (List.splitOnP_ne_nil p t)
      | cons hd tl =>
        rw [hsp, List.modifyHead_cons] at hl
        rcases List.mem_cons.mp hl with h1 | h1
        · subst h1
          rcases List.mem_cons.mp ha with h2 | h2
          · subst h2; exact hx
          · exact ih hd (by rw [hsp]; exact List.mem_cons_self _ _) a h2
        · exact ih l (by rw [hsp]; exact List.mem_cons_of_mem _ h1) a ha

theorem splitOnP_append_sep {α : Type _} (p : α → Bool) (c : α) (hc : p c = true)
    (xs ys : List α) :
    (xs ++ c :: ys).splitOnP p = xs.splitOnP p ++ ys.splitOnP p := by
  induction xs with
  | nil => simp [List.splitOnP_cons, hc]
  | cons x t ih =>
    rw [List.cons_append, List.splitOnP_cons, List.splitOnP_cons, ih]
    by_cases hx : p x = true
    · rw [if_pos hx, if_pos hx, List.cons_append]
    · rw [if_neg hx, if_neg hx]
      cases hsp : t.splitOnP p with
      | nil => exact absurd hsp (List.splitOnP_ne_nil p t)
      | cons hd tl => simp

theorem get_commit_log_no_newline (log : Str) :
    ∀ c ∈ get_commit_log log, '\n' ∉ c := by
  intro c hc hmem
  have := splitOnP_pieces_not_sat (fun a => a == '\n') (pyStrip log) c
    (by simpa [get_commit_log, List.splitOn] using hc) '\n' hmem
  simp at this

theorem bullets_no_newline (log : Str) :
    ∀ l ∈ (get_commit_log log).map (fun c => "- ".data ++ c), '\n' ∉ l := by
  intro l hl
  rcases List.mem_map.mp hl with ⟨c, hc, rfl⟩
  intro hmem
  rcases List.mem_append.mp hmem with h1 | h1
  · simp at h1
  · exact get_commit_log_no_newline log c hc h1

theorem section_lines (log d : Str) (hd : '\n' ∉ d) :
    (section_text (get_commit_log log) d).splitOn '\n' =
      ("## ".data ++ d) :: [] ::
        (((get_commit_log log).map (fun c => "- ".data ++ c)) ++ [[], []]) := by
  have hA : ∀ x ∈ "## ".data ++ d, ¬(x == '\n') = true := by
    intro x hx
    rcases List.mem_append.mp hx with h1 | h1
    · simp at h1
      rcases h1 with h1 | h1 <;> simp [h1]
    · intro hbeq
      rw [beq_iff_eq] at hbeq
      subst hbeq
      exact hd h1
  have hB := List.splitOn_intercalate
    ((get_commit_log log).map (fun c => "- ".data ++ c)) '\n'
    (bullets_no_newline log) (by simpa using get_commit_log_ne_nil log)
  have hB' : List.splitOnP (fun a => a == '\n')
      (['\n'].intercalate ((get_commit_log log).map (fun c => "- ".data ++ c)))
      = (get_commit_log log).map (fun c => "- ".data ++ c) := by
    simpa [List.splitOn] using hB
  rw [section_text_eq _ _ (get_commit_log_ne_nil log)]
  have hshape : "## ".data ++ d ++ "\n\n".data
        ++ ['\n'].intercalate ((get_commit_log log).map (fun c => "- ".data ++ c))
        ++ "\n\n".data
      = ("## ".data ++ d) ++ '\n' :: ('\n' ::
          (['\n'].intercalate ((get_commit_log log).map (fun c => "- ".data ++ c))
            ++ '\n' :: ['\n'])) := by
    simp [List.append_assoc]
  simp only [List.splitOn]
  rw [hshape, splitOnP_append_sep (fun a => a == '\n') '\n' (by simp) ("## ".data ++ d) _,
    List.splitOnP_cons,
    splitOnP_append_sep (fun a => a == '\n') '\n' (by simp) _ ['\n'], hB',
    List.splitOnP_eq_single (fun a => a == '\n') ("## ".data ++ d) hA]
  simp [List.splitOnP_cons, List.splitOnP_nil]

theorem isPrefixOf_append_right {l₁ l₂ l₃ : Str} (h : l₁.isPrefixOf l₂ = true) :
    l₁.isPrefixOf (l₂ ++ l₃) = true := by
  induction l₁ generalizing l₂ with
  | nil => cases l₂ ++ l₃ <;> rfl
  | cons a t ih =>
    cases l₂ with
    | nil => exact absurd h (by simp [List.isPrefixOf])
    | cons b u =>
      rw [List.cons_append]
      simp only [List.isPrefixOf, Bool.and_eq_true] at h ⊢
      exact ⟨h.1, ih h.2⟩

theorem isPrefixOf_self_append (l t : Str) : l.isPrefixOf (l ++ t) = true := by
  have h : l.isPrefixOf l = true := by
    induction l with
    | nil => rfl
    | cons a u ih => simp [List.isPrefixOf, ih]
  exact isPrefixOf_append_right h

theorem filter_bullet_lines (log d : Str) (hd : '\n' ∉ d) :
    ((section_text (get_commit_log log) d).splitOn '\n').filter
        (fun l => ("- ".data).isPrefixOf l)
      = (get_commit_log log).map (fun c => "- ".data ++ c) := by
  rw [section_lines log d hd]
  have hA : (("- ".data).isPrefixOf ("## ".data ++ d)) = false := rfl
  have hnil : (("- ".data).isPrefixOf ([] : Str)) = false := rfl
  have hmap : List.filter (fun l => ("- ".data).isPrefixOf l)
      ((get_commit_log log).map (fun c => "- ".data ++ c))
      = (get_commit_log log).map (fun c => "- ".data ++ c) := by
    apply List.filter_eq_self.mpr
    intro b hbmem
    rcases List.mem_map.mp hbmem with ⟨c, _, rfl⟩
    exact isPrefixOf_self_append _ _
  simp only [List.filter_cons, hA, hnil, List.filter_append, hmap]
  simp [List.filter_cons, hnil]

/-- Claim C1 (contradicted by the code): with zero commits in the queried
range the git subprocess prints the empty string, yet
`"".strip().split("\n") == [""]`, so `get_commit_log` returns `[""]`, the
`if not commits` guard does not fire, and the run rewrites the file: the
prior content `"old notes\n"` is replaced by a headered document holding one
empty bullet. -/
theorem c1_zero_commit_run_still_writes :
    get_commit_log "".data = ["".data]
    ∧ update_changelog (.ok "".data) (some "old notes\n".data) "2024-05-01".data
        = .ok (some "# Changelog\n\nold notes\n## 2024-05-01\n\n- \n\n".data)
    ∧ file_after (some "old notes\n".data)
          (update_changelog (.ok "".data) (some "old notes\n".data) "2024-05-01".data)
        ≠ some "old notes\n".data :=
  ⟨rfl, rfl, by decide⟩

/-- Claim C2, counterexample: for prior content `"# Changelog\n# Changelog\n"`
the run writes a document in which the header line occurs twice, not exactly
once. -/
theorem c2_header_line_not_unique :
    update_changelog (.ok "a1b2c3d Fix X".data)
        (some "# Changelog\n# Changelog\n".data) "2024-05-01".data
      = .ok (some "# Changelog\n# Changelog\n## 2024-05-01\n\n- a1b2c3d Fix X\n\n".data)
    ∧ header_line_count
        "# Changelog\n# Changelog\n## 2024-05-01\n\n- a1b2c3d Fix X\n\n".data ≠ 1 :=
  ⟨rfl, by decide⟩

/-- Claim C2, amended: every writing run produces a document that starts with
the text `# Changelog` (the header line occurs exactly once only when the
prior content does not already contain extra header lines). -/
theorem c2_written_document_starts_with_header (log : Str) (file : Option Str)
    (d : Str) :
    ∃ out, update_changelog (.ok log) file d = .ok (some out)
      ∧ ("# Changelog".data).isPrefixOf out = true := by
  refine ⟨_, update_changelog_ok log file d, ?_⟩
  by_cases hcase : ("# Changelog".data).isPrefixOf (file.getD []) = true
  · rw [with_header, if_pos hcase]
    exact isPrefixOf_append_right hcase
  · rw [with_header, if_neg hcase, List.append_assoc]
    exact isPrefixOf_append_right rfl

/-- Claim C3, counterexample: when the prior content starts with
`# Changelog` but the header is not followed by a blank line
(`"# Changelog\nstuff\n"`), the run keeps the prior content verbatim, so the
written file does not start with `# Changelog` followed by a blank line. -/
theorem c3_headered_prior_keeps_missing_blank_line :
    update_changelog (.ok "a1b2c3d Fix X".data)
        (some "# Changelog\nstuff\n".data) "2024-05-01".data
      = .ok (some "# Changelog\nstuff\n## 2024-05-01\n\n- a1b2c3d Fix X\n\n".data)
    ∧ ("# Changelog\n\n".data).isPrefixOf
        "# Changelog\nstuff\n## 2024-05-01\n\n- a1b2c3d Fix X\n\n".data = false :=
  ⟨rfl, by decide⟩

/-- Claim C3, amended: if the prior content (empty when the file is absent)
does not start with `# Changelog`, a run with commits writes a file starting
with `# Changelog` followed by a blank line; when the prior content already
starts with `# Changelog` the text after that header is kept as it was. -/
theorem c3_header_and_blank_line_when_not_headered (log : Str)
    (file : Option Str) (d : Str)
    (h : ("# Changelog".data).isPrefixOf (file.getD []) = false) :
    ∃ out, update_changelog (.ok log) file d = .ok (some out)
      ∧ ("# Changelog\n\n".data).isPrefixOf out = true := by
  refine ⟨_, update_changelog_ok log file d, ?_⟩
  rw [with_header, if_neg (by simp [h]), List.append_assoc]
  exact isPrefixOf_self_append _ _

/-- Witness for `c3_header_and_blank_line_when_not_headered` at the absent
file and a one-commit log. -/
theorem c3_header_and_blank_line_witness :
    ("# Changelog".data).isPrefixOf ((none : Option Str).getD []) = false
    ∧ ∃ out,
        update_changelog (.ok "a1b2c3d Fix X".data) none "2024-05-01".data
          = .ok (some out)
        ∧ ("# Changelog\n\n".data).isPrefixOf out = true :=
  ⟨by decide, c3_header_and_blank_line_when_not_headered
    "a1b2c3d Fix X".data none "2024-05-01".data (by decide)⟩

/-- Claim C4, counterexample: in the three-commit scenario on an absent file
the written text carries a blank line between the date heading and the first
bullet, so it differs from the text the claim prescribes. -/
theorem c4_scenario_text_differs_from_claim :
    update_changelog
        (.ok "a1b2c3d Fix X\ne4f5g6h Add Y\n112233a Refactor Z".data)
        none "2024-05-01".data
      = .ok (some "# Changelog\n\n## 2024-05-01\n\n- a1b2c3d Fix X\n- e4f5g6h Add Y\n- 112233a Refactor Z\n\n".data)
    ∧ ("# Changelog\n\n## 2024-05-01\n\n- a1b2c3d Fix X\n- e4f5g6h Add Y\n- 112233a Refactor Z\n\n".data : Str)
        ≠ "# Changelog\n\n## 2024-05-01\n- a1b2c3d Fix X\n- e4f5g6h Add Y\n- 112233a Refactor Z\n\n".data :=
  ⟨rfl, by decide⟩

/-- Claim C4, amended: for an absent or empty file and the three commits of
the scenario, the run on 2024-05-01 writes the headered document whose dated
section has a blank line between the heading and the three bullets. -/
theorem c4_three_commit_scenario :
    update_changelog
        (.ok "a1b2c3d Fix X\ne4f5g6h Add Y\n112233a Refactor Z".data)
        none "2024-05-01".data
      = .ok (some "# Changelog\n\n## 2024-05-01\n\n- a1b2c3d Fix X\n- e4f5g6h Add Y\n- 112233a Refactor Z\n\n".data)
    ∧ update_changelog
        (.ok "a1b2c3d Fix X\ne4f5g6h Add Y\n112233a Refactor Z".data)
        (some "".data) "2024-05-01".data
      = .ok (some "# Changelog\n\n## 2024-05-01\n\n- a1b2c3d Fix X\n- e4f5g6h Add Y\n- 112233a Refactor Z\n\n".data) :=
  ⟨rfl, rfl⟩

/-- Claim C5, counterexample: the write concatenates the new section directly
after the (possibly headered) existing content; the merge the spec describes,
with a separating blank line, yields a different document on prior content
`"# Changelog\n\nold notes\n"`. -/
theorem c5_no_separating_blank_line :
    update_changelog (.ok "a1b2c3d Fix X".data)
        (some "# Changelog\n\nold notes\n".data) "2024-05-01".data
      = .ok (some "# Changelog\n\nold notes\n## 2024-05-01\n\n- a1b2c3d Fix X\n\n".data)
    ∧ merged_content_spec "# Changelog\n\nold notes\n".data
        (section_text (get_commit_log "a1b2c3d Fix X".data) "2024-05-01".data)
      ≠ "# Changelog\n\nold notes\n## 2024-05-01\n\n- a1b2c3d Fix X\n\n".data :=
  ⟨rfl, by decide⟩

/-- Claim C5, amended: the merge-and-persist step prepends the header block
exactly when the existing content does not start with `# Changelog`, and then
appends the new section text directly after the (possibly headered) existing
content, with no separating blank line inserted. -/
theorem c5_merge_prepends_header_then_appends_directly (log : Str)
    (file : Option Str) (d : Str) :
    update_changelog (.ok log) file d =
      .ok (some ((if ("# Changelog".data).isPrefixOf (file.getD []) then file.getD []
          else "# Changelog\n\n".data ++ file.getD [])
        ++ section_text (get_commit_log log) d)) :=
  update_changelog_ok log file d

/-- Claim C6, counterexample: the formatted section is not the text the spec
describes: `"\n".join` inserts a newline after the heading element
`f"## {date_str}\n"`, which itself ends in a newline, so a blank line stands
between the heading and the first bullet. -/
theorem c6_section_differs_from_spec_format :
    section_text ["a1b2c3d Fix X".data] "2024-05-01".data
      = "## 2024-05-01\n\n- a1b2c3d Fix X\n\n".data
    ∧ section_text ["a1b2c3d Fix X".data] "2024-05-01".data
      ≠ section_text_spec ["a1b2c3d Fix X".data] "2024-05-01".data :=
  ⟨rfl, by decide⟩

/-- Claim C6, amended: for every non-empty commit list the formatted section
is exactly a heading line `## <date>`, a blank line, the bullet lines
`- <commit>` separated by newlines, and a final blank line. -/
theorem c6_section_exact_text (commits : List Str) (d : Str) (h : commits ≠ []) :
    section_text commits d =
      "## ".data ++ d ++ "\n\n".data
        ++ ['\n'].intercalate (commits.map (fun c => "- ".data ++ c)) ++ "\n\n".data :=
  section_text_eq commits d h

/-- Witness for `c6_section_exact_text` at a one-commit list. -/
theorem c6_section_exact_text_witness :
    (["a1b2c3d Fix X".data] : List Str) ≠ []
    ∧ section_text ["a1b2c3d Fix X".data] "2024-05-01".data =
        "## ".data ++ "2024-05-01".data ++ "\n\n".data
          ++ ['\n'].intercalate
              (List.map (fun c => "- ".data ++ c) ["a1b2c3d Fix X".data])
          ++ "\n\n".data :=
  ⟨by decide, c6_section_exact_text ["a1b2c3d Fix X".data] "2024-05-01".data (by decide)⟩

/-- Claim C7: for any subprocess output the queried commit lines are
`get_commit_log log`, and the lines of the formatted section that are bullet
lines (prefix `- `) are exactly one per commit, in query order. -/
theorem c7_one_bullet_per_commit_in_order (log d : Str) (hd : '\n' ∉ d) :
    ((section_text (get_commit_log log) d).splitOn '\n').filter
        (fun l => ("- ".data).isPrefixOf l)
      = (get_commit_log log).map (fun c => "- ".data ++ c) :=
  filter_bullet_lines log d hd

/-- Witness for `c7_one_bullet_per_commit_in_order` at a three-commit log and
the scenario date. -/
theorem c7_one_bullet_per_commit_witness :
    '\n' ∉ "2024-05-01".data
    ∧ ((section_text
          (get_commit_log "a1b2c3d Fix X\ne4f5g6h Add Y\n112233a Refactor Z".data)
          "2024-05-01".data).splitOn '\n').filter
            (fun l => ("- ".data).isPrefixOf l)
        = (get_commit_log "a1b2c3d Fix X\ne4f5g6h Add Y\n112233a Refactor Z".data).map
            (fun c => "- ".data ++ c) :=
  ⟨by decide, c7_one_bullet_per_commit_in_order
    "a1b2c3d Fix X\ne4f5g6h Add Y\n112233a Refactor Z".data "2024-05-01".data (by decide)⟩

/-- Claim C8: when the git query raises (non-zero exit status), the run
propagates the error; the write is never reached, so the file keeps its prior
state. -/
theorem c8_query_failure_aborts_without_write (e : Nat) (file : Option Str)
    (d : Str) :
    update_changelog (.error e) file d = .error e
    ∧ file_after file (update_changelog (.error e) file d) = file :=
  ⟨rfl, rfl⟩

/-- Claim C9: every written document contains the prior content unmodified and
contiguous; it stands at the very front when the prior content starts with
`# Changelog`, and directly after the prepended header block otherwise. -/
theorem c9_prior_content_contiguous (log : Str) (file : Option Str) (d : Str) :
    ∃ out, update_changelog (.ok log) file d = .ok (some out)
      ∧ (file.getD []) <:+: out
      ∧ ((if ("# Changelog".data).isPrefixOf (file.getD []) then file.getD []
          else "# Changelog\n\n".data ++ file.getD []).isPrefixOf out = true) := by
  refine ⟨_, update_changelog_ok log file d, ?_, isPrefixOf_self_append _ _⟩
  by_cases hcase : ("# Changelog".data).isPrefixOf (file.getD []) = true
  · exact ⟨[], section_text (get_commit_log log) d, by rw [with_header, if_pos hcase]; rfl⟩
  · exact ⟨"# Changelog\n\n".data, section_text (get_commit_log log) d, by
      rw [with_header, if_neg hcase, List.append_assoc]⟩

/-- Claim C10: splitting any subprocess output on newlines yields at least one
piece, so `get_commit_log` never returns the empty list and every successful
run takes the writing branch, never the `if not commits` no-op branch. -/
theorem c10_no_op_branch_unreachable (log : Str) :
    get_commit_log log ≠ []
    ∧ ∀ (file : Option Str) (d : Str), ∃ out,
        update_changelog (.ok log) file d = .ok (some out) :=
  ⟨get_commit_log_ne_nil log, fun file d => ⟨_, update_changelog_ok log file d⟩⟩
